import Mathlib

/-!
Verification of the k8s-manifest-kit kustomize renderer.

This development shallowly embeds the renderer's filesystem layer
(pkg/fs/adapter, pkg/fs/union, pkg/util/fs), its render engine
(Engine.Run / Engine.prepareFilesystem), its cache key functions
(pkg/kustomize_cache.go) and the stderr suppression helper
(pkg/util/io) and proves the specification's claims about them.

Machine-level conventions: file contents are modelled as Lean strings
(byte-for-byte equality becomes string equality), Go errors become an
inductive `Err` with a wrap constructor mirroring fmt.Errorf with the
%w verb, and afero filesystems become association lists from absolute
path to entry.
-/

/-- Go error values as used by the renderer: a distinguished sentinel
(ErrPathMustBeDirectory), a not-exist error (os.IsNotExist-matching), a
permission error (syscall.EPERM), a plain message, or a wrap of an
inner error with a context string (fmt.Errorf with the %w verb). -/
inductive Err where
  | pathMustBeDirectory
  | notExist (path : String)
  | permission
  | msg (s : String)
  | wrap (ctx : String) (e : Err)
  deriving DecidableEq, Repr

/-- errors.Is: an error matches a target if it equals it or wraps an
error matching it. -/
def Err.is : Err → Err → Bool
  | .wrap ctx inner, t => (Err.wrap ctx inner == t) || inner.is t
  | e, t => e == t

/-- A filesystem entry: a regular file with its content, or a directory. -/
inductive Entry where
  | file (content : String)
  | dir
  deriving DecidableEq, Repr

/-- The content of one afero filesystem: an association list from
absolute path to entry; the first binding for a path wins. -/
abbrev FsMap := List (String × Entry)

/-- Look a path up in a filesystem content map. -/
def lookupFs : FsMap → String → Option Entry
  | [], _ => none
  | (q, e) :: rest, p => if q = p then some e else lookupFs rest p

/-- Bind a path in a filesystem content map (write/update). -/
def insertFs (m : FsMap) (p : String) (e : Entry) : FsMap :=
  (p, e) :: m.filter (fun q => q.1 != p)

/-- Whether one character list starts with another. -/
def charListStartsWith : List Char → List Char → Bool
  | _, [] => true
  | [], _ :: _ => false
  | a :: as, b :: bs => (a == b) && charListStartsWith as bs

/-- strings.HasPrefix / String.startsWith on the character level. -/
def strStartsWith (s t : String) : Bool :=
  charListStartsWith s.data t.data

/-- Remove a path and everything below it (RemoveAll semantics). -/
def removeSubtreeFs (m : FsMap) (p : String) : FsMap :=
  m.filter (fun q => !(q.1 == p || strStartsWith q.1 (p ++ "/")))

/-- A composed union filesystem as built by union.NewFs: a base layer
and an overlay layer (afero.NewCopyOnWriteFs(base, overlay) wrapped in
the adapter). -/
structure UnionFs where
  base : FsMap
  overlay : FsMap
  deriving DecidableEq, Repr

/-- union.NewFs: compose a base filesystem with an overlay. A custom
overlay (WithOverlayFs) takes precedence; otherwise a fresh in-memory
overlay is created and the WithOverride (path, content) pairs are
written into it before composition completes. -/
def newFs (base : FsMap) (overrides : List (String × String))
    (customOverlay : Option FsMap) : UnionFs :=
  { base := base
    overlay :=
      match customOverlay with
      | some o => o
      | none => overrides.foldl (fun m pc => insertFs m pc.1 (.file pc.2)) [] }

/-- The mutating operations of the filesys.FileSystem contract. -/
inductive MutOp where
  | writeFile (path content : String)
  | create (path : String)
  | mkdir (path : String)
  | mkdirAll (path : String)
  | removeAll (path : String)
  deriving DecidableEq, Repr

/-- One mutating call on the composed filesystem, with afero
CopyOnWriteFs semantics: every write lands in the overlay layer;
removing an entry that exists only in the read-only base is refused
with a permission error, and removing an absent entry reports
not-exist. The base layer is never touched. -/
def applyMutOp (u : UnionFs) (op : MutOp) : UnionFs × Except Err Unit :=
  match op with
  | .writeFile p c => ({ u with overlay := insertFs u.overlay p (.file c) }, .ok ())
  | .create p => ({ u with overlay := insertFs u.overlay p (.file "") }, .ok ())
  | .mkdir p => ({ u with overlay := insertFs u.overlay p .dir }, .ok ())
  | .mkdirAll p => ({ u with overlay := insertFs u.overlay p .dir }, .ok ())
  | .removeAll p =>
    match lookupFs u.overlay p with
    | some _ => ({ u with overlay := removeSubtreeFs u.overlay p }, .ok ())
    | none =>
      match lookupFs u.base p with
      | some _ => (u, .error .permission)
      | none => (u, .error (.notExist p))

/-- Apply a sequence of mutating operations, keeping the resulting
filesystem at each step. -/
def applyMutOps (u : UnionFs) (ops : List MutOp) : UnionFs :=
  ops.foldl (fun acc op => (applyMutOp acc op).1) u

/-- ReadFile on the composed filesystem: the overlay is consulted
first; only on absence does the read fall through to the base. -/
def UnionFs.readFile (u : UnionFs) (p : String) : Except Err String :=
  match lookupFs u.overlay p with
  | some (.file c) => .ok c
  | some .dir => .error (.msg ("is a directory: " ++ p))
  | none =>
    match lookupFs u.base p with
    | some (.file c) => .ok c
    | some .dir => .error (.msg ("is a directory: " ++ p))
    | none => .error (.notExist p)

theorem applyMutOp_base (u : UnionFs) (op : MutOp) :
    (applyMutOp u op).1.base = u.base := by
  cases op with
  | writeFile p c => rfl
  | create p => rfl
  | mkdir p => rfl
  | mkdirAll p => rfl
  | removeAll p =>
    simp only [applyMutOp]
    cases lookupFs u.overlay p with
    | some e => rfl
    | none =>
      cases lookupFs u.base p with
      | some e => rfl
      | none => rfl

theorem applyMutOps_base (ops : List MutOp) :
    ∀ u : UnionFs, (applyMutOps u ops).base = u.base := by
  induction ops with
  | nil => intro u; rfl
  | cons op rest ih =>
    intro u
    have hstep : applyMutOps u (op :: rest) = applyMutOps (applyMutOp u op).1 rest := rfl
    rw [hstep, ih, applyMutOp_base]

/-- C1: for every sequence of mutating operations (WriteFile, Create,
Mkdir, MkdirAll, RemoveAll) performed through a union filesystem
returned by union.NewFs, the base filesystem's content is byte-for-byte
identical to its content before composition: every mutation lands only
in the overlay and the base is never invoked for mutation. -/
theorem union_base_immutable (base : FsMap) (overrides : List (String × String))
    (customOverlay : Option FsMap) (ops : List MutOp) :
    (applyMutOps (newFs base overrides customOverlay) ops).base = base := by
  rw [applyMutOps_base]
  rfl

/-- C2: for every path present in both the base and the overlay of a
composed union filesystem, ReadFile returns the overlay's content for
that path, never the base's. -/
theorem union_overlay_read_precedence (u : UnionFs) (p c cBase : String)
    (hov : lookupFs u.overlay p = some (.file c))
    (_hb : lookupFs u.base p = some (.file cBase)) :
    u.readFile p = .ok c := by
  simp [UnionFs.readFile, hov]

theorem union_overlay_read_precedence_witness :
    lookupFs (newFs [("/shared.txt", .file "base content")]
        [("/shared.txt", "overlay content")] none).overlay "/shared.txt"
      = some (.file "overlay content")
    ∧ (newFs [("/shared.txt", .file "base content")]
        [("/shared.txt", "overlay content")] none).readFile "/shared.txt"
      = .ok "overlay content" :=
  ⟨rfl, union_overlay_read_precedence _ "/shared.txt" "overlay content" "base content" rfl rfl⟩

/-- An opaque open-file handle. -/
abbrev FileHandle := Nat

/-- The filesys.FileSystem contract as a record of operations, used to
model an arbitrary base filesystem handed to NewReadOnlyFs. -/
structure FileSystemOps where
  create : String → Except Err FileHandle
  mkdir : String → Except Err Unit
  mkdirAll : String → Except Err Unit
  removeAll : String → Except Err Unit
  writeFile : String → String → Except Err Unit
  openFile : String → Except Err FileHandle
  existsPath : String → Bool
  isDir : String → Bool
  readDir : String → Except Err (List String)
  readFile : String → Except Err String
  glob : String → Except Err (List String)
  walk : String → Except Err Unit
  cleanedAbs : String → Except Err (String × String)

/-- The readOnlyWrapper of pkg/util/fs/fs.go: every mutating call
fails with a dedicated unsupported-on-read-only-filesystem error and
every read call is delegated to the wrapped base unchanged. -/
def readOnlyWrapper (base : FileSystemOps) : FileSystemOps :=
  { create := fun _ => .error (.msg "create not supported on read-only filesystem")
    mkdir := fun _ => .error (.msg "mkdir not supported on read-only filesystem")
    mkdirAll := fun _ => .error (.msg "mkdirall not supported on read-only filesystem")
    removeAll := fun _ => .error (.msg "removeall not supported on read-only filesystem")
    writeFile := fun _ _ => .error (.msg "writefile not supported on read-only filesystem")
    openFile := base.openFile
    existsPath := base.existsPath
    isDir := base.isDir
    readDir := base.readDir
    readFile := base.readFile
    glob := base.glob
    walk := base.walk
    cleanedAbs := base.cleanedAbs }

/-- C8: every mutating operation (Create, Mkdir, MkdirAll, RemoveAll,
WriteFile) on the read-only wrapper returns an unsupported-on-read-only
filesystem error rather than silently succeeding, while the read
operations (Open, ReadFile, ReadDir, Exists, IsDir, Glob, Walk,
CleanedAbs) are passed through to the base unchanged. -/
theorem readOnlyFs_spec (base : FileSystemOps) (p : String) (data : String) :
    ((readOnlyWrapper base).create p
        = .error (.msg "create not supported on read-only filesystem")
      ∧ (readOnlyWrapper base).mkdir p
        = .error (.msg "mkdir not supported on read-only filesystem")
      ∧ (readOnlyWrapper base).mkdirAll p
        = .error (.msg "mkdirall not supported on read-only filesystem")
      ∧ (readOnlyWrapper base).removeAll p
        = .error (.msg "removeall not supported on read-only filesystem")
      ∧ (readOnlyWrapper base).writeFile p data
        = .error (.msg "writefile not supported on read-only filesystem"))
    ∧ ((readOnlyWrapper base).openFile p = base.openFile p
      ∧ (readOnlyWrapper base).existsPath p = base.existsPath p
      ∧ (readOnlyWrapper base).isDir p = base.isDir p
      ∧ (readOnlyWrapper base).readDir p = base.readDir p
      ∧ (readOnlyWrapper base).readFile p = base.readFile p
      ∧ (readOnlyWrapper base).glob p = base.glob p
      ∧ (readOnlyWrapper base).walk p = base.walk p
      ∧ (readOnlyWrapper base).cleanedAbs p = base.cleanedAbs p) :=
  ⟨⟨rfl, rfl, rfl, rfl, rfl⟩, ⟨rfl, rfl, rfl, rfl, rfl, rfl, rfl, rfl⟩⟩

/-- Split a character list at slashes (strings.Split on "/"). -/
def splitSlashAux : List Char → List Char → List String
  | [], acc => [String.mk acc.reverse]
  | c :: cs, acc =>
    if c = '/' then String.mk acc.reverse :: splitSlashAux cs []
    else splitSlashAux cs (c :: acc)

/-- Split a path string at slashes. -/
def splitSlash (s : String) : List String :=
  splitSlashAux s.data []

/-- Join path segments with slashes (strings.Join on "/"). -/
def joinSlash : List String → String
  | [] => ""
  | [s] => s
  | s :: rest => s ++ "/" ++ joinSlash (rest)

/-- Path segments of a slash-separated path, dropping empty segments
and single dots (the first phase of filepath.Clean). -/
def pathSegs (p : String) : List String :=
  (splitSlash p).filter (fun s => (s != "") && (s != "."))

/-- Resolve dot-dot segments against the preceding segments; a dot-dot
at the root is dropped, as filepath.Clean does on absolute paths. -/
def collapseDots (segs : List String) : List String :=
  segs.foldl (fun acc s => if s = ".." then acc.dropLast else acc ++ [s]) []

/-- filepath.Clean for an absolute path. -/
def cleanAbsPath (p : String) : String :=
  "/" ++ joinSlash (collapseDots (pathSegs p))

/-- filepath.Abs: a relative path is joined against the (absolute)
working directory; the result is cleaned. -/
def absPath (cwd p : String) : String :=
  if strStartsWith p "/" then cleanAbsPath p else cleanAbsPath (cwd ++ "/" ++ p)

/-- filepath.Dir on a cleaned absolute path. -/
def parentDir (p : String) : String :=
  "/" ++ joinSlash (pathSegs p).dropLast

/-- filepath.Base on a cleaned absolute path. -/
def baseName (p : String) : String :=
  ((pathSegs p).getLast?).getD "/"

/-- The kind an entry reports from stat. -/
inductive FKind where
  | file
  | dir
  deriving DecidableEq, Repr

/-- The outcome of a stat call on the wrapped afero backend. -/
inductive StatRes where
  | notExist
  | ioErr (m : String)
  | found (k : FKind)
  deriving DecidableEq, Repr

/-- The afero backend wrapped by the adapter: its stat behaviour,
whether it is the real on-disk filesystem (afero.OsFs), and its
symbolic-link resolution (filepath.EvalSymlinks), which may fail. -/
structure AdapterFs where
  stat : String → StatRes
  isOs : Bool
  evalSymlinks : String → Option String

/-- The errors CleanedAbs can produce: symlink-resolution failure, a
not-found error (fs.PathError carrying fs.ErrNotExist, matched by
os.IsNotExist), or a wrapped other stat failure. -/
inductive CleanedErr where
  | symlinkFailure (path : String)
  | notFound (path : String)
  | statFailure (path : String) (m : String)
  deriving DecidableEq, Repr

/-- Whether an error is the distinguishable not-found error. -/
def CleanedErr.isNotFound : CleanedErr → Bool
  | .notFound _ => true
  | _ => false

/-- The absolute, symlink-resolved path CleanedAbs stats: the input is
defaulted to dot when empty, made absolute against the working
directory, and symlinks are resolved only on the real on-disk
filesystem. -/
def resolvedPath (a : AdapterFs) (cwd p : String) : Option String :=
  let q := if p = "" then "." else p
  let abs := absPath cwd q
  if a.isOs then a.evalSymlinks abs else some abs

/-- Adapter.CleanedAbs: normalize, resolve, stat; a directory yields
(dir, ""), a file yields (parent, name), a missing path yields the
distinguishable not-found error. -/
def cleanedAbs (a : AdapterFs) (cwd p : String) : Except CleanedErr (String × String) :=
  match resolvedPath a cwd p with
  | none => .error (.symlinkFailure p)
  | some r =>
    match a.stat r with
    | .notExist => .error (.notFound p)
    | .ioErr m => .error (.statFailure p m)
    | .found .dir => .ok (r, "")
    | .found .file => .ok (parentDir r, baseName r)

/-- C7: CleanedAbs normalizes its input to an absolute path, resolves
symbolic links only when the backend is the real on-disk filesystem,
and then returns the directory and empty name for a directory, the
parent directory and file name for a file, and a not-found error
distinguishable from other I/O failures for a missing path. -/
theorem cleanedAbs_spec (a : AdapterFs) (cwd p : String) :
    (∀ r, resolvedPath a cwd p = some r →
      (a.stat r = .found .dir → cleanedAbs a cwd p = .ok (r, ""))
      ∧ (a.stat r = .found .file → cleanedAbs a cwd p = .ok (parentDir r, baseName r))
      ∧ (a.stat r = .notExist → cleanedAbs a cwd p = .error (.notFound p)))
    ∧ ((CleanedErr.notFound p).isNotFound = true
      ∧ (∀ m, (CleanedErr.statFailure p m).isNotFound = false)
      ∧ (CleanedErr.symlinkFailure p).isNotFound = false)
    ∧ (∀ st f g, cleanedAbs ⟨st, false, f⟩ cwd p = cleanedAbs ⟨st, false, g⟩ cwd p) := by
  refine ⟨fun r hr => ?_, ⟨rfl, fun m => rfl, rfl⟩, fun st f g => ?_⟩
  · refine ⟨fun hs => ?_, fun hs => ?_, fun hs => ?_⟩ <;>
      simp [cleanedAbs, hr, hs]
  · simp [cleanedAbs, resolvedPath]

theorem cleanedAbs_spec_witness :
    cleanedAbs ⟨fun s => if s = "/app" then .found .dir
        else if s = "/app/kustomization.yaml" then .found .file
        else .notExist, false, fun _ => none⟩ "/" "/app" = .ok ("/app", "")
    ∧ cleanedAbs ⟨fun s => if s = "/app" then .found .dir
        else if s = "/app/kustomization.yaml" then .found .file
        else .notExist, false, fun _ => none⟩ "/" "/app/kustomization.yaml"
      = .ok ("/app", "kustomization.yaml")
    ∧ cleanedAbs ⟨fun s => if s = "/app" then .found .dir
        else if s = "/app/kustomization.yaml" then .found .file
        else .notExist, false, fun _ => none⟩ "/" "/missing"
      = .error (.notFound "/missing") := by
  refine ⟨((cleanedAbs_spec _ "/" "/app").1 "/app" (by decide)).1 (by decide),
    ?_, ((cleanedAbs_spec _ "/" "/missing").1 "/missing" (by decide)).2.2 (by decide)⟩
  have h := ((cleanedAbs_spec
    ⟨fun s => if s = "/app" then .found .dir
      else if s = "/app/kustomization.yaml" then .found .file
      else .notExist, false, fun _ => none⟩
    "/" "/app/kustomization.yaml").1
    "/app/kustomization.yaml" (by decide)).2.1 (by decide)
  rw [h]
  exact congrArg Except.ok (by decide)

/-- The data used to generate cache keys for rendered kustomizations
(KustomizationSpec of pkg/kustomize_cache.go); the Go map of values is
modelled as an association list in arbitrary insertion order. -/
structure KustomizationSpec where
  path : String
  values : List (String × String)
  deriving DecidableEq, Repr

/-- Total order on key/value pairs: by key, then by value. -/
def pairLe (a b : String × String) : Bool :=
  decide (a.1 < b.1) || (decide (a.1 = b.1) && decide (a.2 ≤ b.2))

theorem pairLe_trans (a b c : String × String) :
    pairLe a b = true → pairLe b c = true → pairLe a c = true := by
  simp only [pairLe, Bool.or_eq_true, Bool.and_eq_true, decide_eq_true_eq]
  rintro (h1 | ⟨h1, h1v⟩) (h2 | ⟨h2, h2v⟩)
  · exact Or.inl (lt_trans h1 h2)
  · exact Or.inl (h2 ▸ h1)
  · exact Or.inl (h1 ▸ h2)
  · exact Or.inr ⟨h1.trans h2, le_trans h1v h2v⟩

theorem pairLe_total (a b : String × String) :
    (pairLe a b || pairLe b a) = true := by
  simp only [pairLe, Bool.or_eq_true, Bool.and_eq_true, decide_eq_true_eq]
  rcases lt_trichotomy a.1 b.1 with h | h | h
  · exact Or.inl (Or.inl h)
  · rcases le_total a.2 b.2 with hv | hv
    · exact Or.inl (Or.inr ⟨h, hv⟩)
    · exact Or.inr (Or.inr ⟨h.symm, hv⟩)
  · exact Or.inr (Or.inl h)

theorem pairLe_antisymm (a b : String × String) :
    pairLe a b = true → pairLe b a = true → a = b := by
  simp only [pairLe, Bool.or_eq_true, Bool.and_eq_true, decide_eq_true_eq]
  rintro (h1 | ⟨h1, h1v⟩) (h2 | ⟨h2, h2v⟩)
  · exact absurd h2 (lt_asymm h1)
  · exact absurd h1 (h2 ▸ lt_irrefl a.1)
  · exact absurd h2 (h1 ▸ lt_irrefl a.1)
  · exact Prod.ext h1 (le_antisymm h1v h2v)

instance : IsAntisymm (String × String) (fun a b => pairLe a b = true) :=
  ⟨pairLe_antisymm⟩

/-- Canonical ordering of a values map: entries sorted by key (spew's
SortKeys traversal used by dump.ForHash). -/
def canonValues (vs : List (String × String)) : List (String × String) :=
  vs.mergeSort pairLe

theorem canonValues_perm_eq {l₁ l₂ : List (String × String)} (h : l₁.Perm l₂) :
    canonValues l₁ = canonValues l₂ := by
  apply List.eq_of_perm_of_sorted (r := fun a b => pairLe a b = true)
  · exact (List.mergeSort_perm l₁ pairLe).trans (h.trans (List.mergeSort_perm l₂ pairLe).symm)
  · exact List.sorted_mergeSort pairLe_trans pairLe_total l₁
  · exact List.sorted_mergeSort pairLe_trans pairLe_total l₂

/-- Printed form of one key/value entry. -/
def encodePair (kv : String × String) : String :=
  "(" ++ kv.1 ++ ":" ++ kv.2 ++ ")"

/-- DefaultCacheKey: dump.ForHash over the full specification.
dump.ForHash prints the spec with spew configured for deterministic
output (SortKeys, no pointer addresses), so it is modelled as a
canonical encoding of the path and the key-sorted values. -/
def defaultCacheKey (spec : KustomizationSpec) : String :=
  "KustomizationSpec(Path:" ++ spec.path ++ ",Values:"
    ++ joinSlash ((canonValues spec.values).map encodePair) ++ ")"

/-- PathOnlyCacheKey (and FastCacheKey): the key is the path alone. -/
def pathOnlyCacheKey (spec : KustomizationSpec) : String :=
  spec.path

/-- C9: the default cache key is deterministic and independent of map
insertion order — two specifications with equal Path and equal Values
content (any insertion order) get the same key — and the path-only
variant depends only on Path, so equal paths always give equal keys
under it regardless of values. -/
theorem cacheKey_determinism (s₁ s₂ : KustomizationSpec)
    (hpath : s₁.path = s₂.path) :
    (s₁.values.Perm s₂.values → defaultCacheKey s₁ = defaultCacheKey s₂)
    ∧ pathOnlyCacheKey s₁ = pathOnlyCacheKey s₂ := by
  constructor
  · intro hperm
    unfold defaultCacheKey
    rw [hpath, canonValues_perm_eq hperm]
  · exact hpath

theorem cacheKey_determinism_witness :
    defaultCacheKey ⟨"/app", [("replicas", "3"), ("image", "nginx")]⟩
      = defaultCacheKey ⟨"/app", [("image", "nginx"), ("replicas", "3")]⟩
    ∧ pathOnlyCacheKey ⟨"/app", [("replicas", "3")]⟩
      = pathOnlyCacheKey ⟨"/app", [("secret", "hunter2")]⟩ :=
  ⟨(cacheKey_determinism ⟨"/app", [("replicas", "3"), ("image", "nginx")]⟩
      ⟨"/app", [("image", "nginx"), ("replicas", "3")]⟩ rfl).1 (by decide),
    (cacheKey_determinism ⟨"/app", [("replicas", "3")]⟩
      ⟨"/app", [("secret", "hunter2")]⟩ rfl).2⟩

/-- kustomizetypes.OriginAnnotations: the BuildMetadata entry that asks
kustomize to attach origin (provenance) annotations. -/
def originAnnotationsKey : String := "originAnnotations"

/-- The annotation kustomize attaches when origin tracking is on. -/
def originAnnotationKey : String := "config.kubernetes.io/origin"

/-- The renderer-identity annotation value. -/
def rendererType : String := "kustomize"

/-- The renderer-identity annotation name (types.AnnotationSourceType). -/
def annSourceType : String := "k8s-manifest-kit.io/source.type"

/-- The source-path annotation name (types.AnnotationSourcePath). -/
def annSourcePath : String := "k8s-manifest-kit.io/source.path"

/-- The source-file annotation name (types.AnnotationSourceFile). -/
def annSourceFile : String := "k8s-manifest-kit.io/source.file"

/-- A rendered document (unstructured.Unstructured): an opaque body, an
optional builder-reported origin file, and its annotation map. -/
structure Doc where
  body : String
  origin : Option String
  annotations : List (String × String)
  deriving DecidableEq, Repr

/-- Read an annotation from an annotation map. -/
def annGet : List (String × String) → String → Option String
  | [], _ => none
  | (q, v) :: rest, k => if q = k then some v else annGet rest k

/-- Set an annotation in an annotation map. -/
def annSet (m : List (String × String)) (k v : String) : List (String × String) :=
  (k, v) :: m.filter (fun q => q.1 != k)

/-- Delete an annotation from an annotation map. -/
def annRemove (m : List (String × String)) (k : String) : List (String × String) :=
  m.filter (fun q => q.1 != k)

/-- removeOriginAnnotation: delete config.kubernetes.io/origin from a
document's annotations. -/
def removeOriginAnnotations (d : Doc) : Doc :=
  { d with annotations := annRemove d.annotations originAnnotationKey }

/-- addSourceAnnotationsToObject: when source annotations are enabled,
attach the renderer-identity and source-path annotations, and the
source-file annotation when the builder reported an origin. -/
def addSourceAnnotationsToObject (sa : Bool) (inputPath : String) (d : Doc) : Doc :=
  if sa = false then d
  else
    let a1 := annSet d.annotations annSourceType rendererType
    let a2 := annSet a1 annSourcePath inputPath
    let a3 :=
      match d.origin with
      | some originPath => annSet a2 annSourceFile originPath
      | none => a2
    { d with annotations := a3 }

/-- Modelled from the spec: createValuesConfigMapYAML lives in
pkg/kustomize_support.go, which is not under src/. Per the spec it
serializes the values as a generated key/value manifest with one entry
per mapping key; only its shape as a deterministic function of the
values matters here. -/
def createValuesConfigMapYAML (values : List (String × String)) : String :=
  "configmap:values:" ++ joinSlash (values.map encodePair)

/-- goyaml.Marshal of the rewritten descriptor: an abstract
deterministic serialization of the kustomization, of which only the
BuildMetadata list is relevant to the claims. -/
def marshalKustomization (buildMetadata : List String) : String :=
  "kustomization:buildMetadata:" ++ joinSlash buildMetadata

/-- The filesystem handed to the builder: the engine's original
filesystem, or a union filesystem composed over it with the given
override (path, content) pairs. -/
inductive FsChoice where
  | original
  | composed (overrides : List (String × String))
  deriving DecidableEq, Repr

/-- The result of Engine.prepareFilesystem: which filesystem to build
against and whether origin annotations were added by this render. -/
structure PrepOut where
  choice : FsChoice
  addedOriginAnnotations : Bool
  deriving DecidableEq, Repr

/-- Engine.prepareFilesystem: if neither source annotations nor values
are needed, return the original filesystem; otherwise resolve the input
path (failing with ErrPathMustBeDirectory when it resolves to a file),
shadow the descriptor with a rewritten one when origin annotations must
be added, add the generated values manifest when values are present,
and compose the union filesystem. The outcome of e.fs.CleanedAbs is
passed in as `cleaned`. -/
def prepareFilesystem (sa : Bool) (inputPath : String) (buildMetadata : List String)
    (kustName : String) (cleaned : Except Err (String × String))
    (values : List (String × String)) : Except Err PrepOut :=
  if sa = false ∧ values = [] then .ok ⟨.original, false⟩
  else
    match cleaned with
    | .error e => .error (.wrap ("failed to resolve path " ++ inputPath) e)
    | .ok (p, f) =>
      if f ≠ "" then .error (.wrap ("path " ++ inputPath) .pathMustBeDirectory)
      else
        let added := sa && !(buildMetadata.contains originAnnotationsKey)
        let descOpts : List (String × String) :=
          if added then
            [(p ++ "/" ++ kustName,
              marshalKustomization (buildMetadata ++ [originAnnotationsKey]))]
          else []
        let valOpts : List (String × String) :=
          if values.isEmpty then []
          else [(p ++ "/values.yaml", createValuesConfigMapYAML values)]
        .ok ⟨.composed (descOpts ++ valOpts), added⟩

/-- WarningLog: write each warning on its own line to the writer; a
failed write aborts with a wrapped error. The writer is modelled by the
outcome of each write. -/
def warningLog (write : String → Option Err) : List String → Option Err
  | [] => none
  | m :: rest =>
    match write m with
    | some e => some (.wrap "failed to write warning" e)
    | none => warningLog write rest

/-- The environment of one Engine.Run call: the outcome of loading the
descriptor (readKustomization is repository code not under src/, so it
is modelled from the spec as the abstract outcome of loading the
overlay's root configuration file: its BuildMetadata list and file
name, or a load error), the deprecation warnings the descriptor
carries, the outcome of e.fs.CleanedAbs on the input path, the
builder's outcome for each filesystem choice (kustomizer.Run, with
plugin transforms folded in), and the outcome of writing each warning
line to stderr. -/
structure RunEnv where
  readKust : Except Err (List String × String)
  warnings : List String
  cleaned : Except Err (String × String)
  builder : FsChoice → Except Err (List Doc)
  stderrWrite : String → Option Err

/-- The warning stage of Engine.Run: when the descriptor carries
warnings, the configured handler (or the default stderr logger) is
invoked on the full list; its error, if any, is the stage's outcome. -/
def warnCheck (handler : Option (List String → Option Err)) (env : RunEnv) : Option Err :=
  if env.warnings = [] then none
  else (handler.getD (warningLog env.stderrWrite)) env.warnings

/-- The outcome of Engine.Run, together with whether the external
builder (kustomizer.Run) was invoked. -/
structure RunOut where
  result : Except Err (List Doc)
  builderInvoked : Bool
  deriving Repr

/-- Engine.Run: read the descriptor, run the warning stage, prepare the
filesystem, invoke the builder (under SuppressStderr, modelled
separately), convert the build results (attaching source annotations
when enabled), and strip the builder-attached origin annotation when
this render added origin tracking itself. -/
def run (sa : Bool) (handler : Option (List String → Option Err)) (inputPath : String)
    (values : List (String × String)) (env : RunEnv) : RunOut :=
  match env.readKust with
  | .error e =>
    ⟨.error (.wrap ("unable to read kustomization from path " ++ inputPath) e), false⟩
  | .ok (buildMetadata, kustName) =>
    match warnCheck handler env with
    | some e => ⟨.error e, false⟩
    | none =>
      match prepareFilesystem sa inputPath buildMetadata kustName env.cleaned values with
      | .error e => ⟨.error e, false⟩
      | .ok prep =>
        match env.builder prep.choice with
        | .error e =>
          ⟨.error (.wrap ("failed to run kustomize for path " ++ inputPath)
            (.wrap "kustomizer run failed" e)), true⟩
        | .ok raw =>
          let docs := raw.map (addSourceAnnotationsToObject sa inputPath)
          ⟨.ok (if prep.addedOriginAnnotations then docs.map removeOriginAnnotations
            else docs), true⟩

theorem strAppendCancelLeft {s a b : String} (h : s ++ a = s ++ b) : a = b := by
  have hd : (s ++ a).data = (s ++ b).data := congrArg String.data h
  rw [String.data_append, String.data_append] at hd
  exact congrArg String.mk (List.append_cancel_left hd)

theorem joinSegNe {p a b : String} (h : a ≠ b) : p ++ "/" ++ a ≠ p ++ "/" ++ b := by
  intro hc
  rw [String.append_assoc, String.append_assoc] at hc
  exact h (strAppendCancelLeft (strAppendCancelLeft hc))

/-- Whether a prepareFilesystem outcome is the original filesystem. -/
def prepIsOriginal : Except Err PrepOut → Bool
  | .ok o =>
    match o.choice with
    | .original => true
    | .composed _ => false
  | .error _ => false

/-- Whether a prepareFilesystem outcome carries a synthetic override at
the given path. -/
def prepHasOverride (r : Except Err PrepOut) (path : String) : Bool :=
  match r with
  | .ok o =>
    match o.choice with
    | .composed ovr => ovr.any (fun kv => kv.1 == path)
    | .original => false
  | .error _ => false

/-- Whether a prepareFilesystem outcome reports that origin annotations
were added by this render. -/
def prepAddedOrigin : Except Err PrepOut → Bool
  | .ok o => o.addedOriginAnnotations
  | .error _ => false

/-- C3 counterexample: with source annotations enabled, provenance
tracking already requested by the descriptor, and empty values, neither
injection condition of the claim holds, yet prepareFilesystem does not
return the original filesystem — it composes a union filesystem with an
empty overlay. -/
theorem prepareFilesystem_injection_counterexample :
    prepareFilesystem true "/app" [originAnnotationsKey] "kustomization.yaml"
        (.ok ("/app", "")) []
      = .ok ⟨.composed [], false⟩
    ∧ ¬ ((originAnnotationsKey ∉ [originAnnotationsKey])
        ∨ ([] : List (String × String)) ≠ []) := by
  exact ⟨rfl, by simp⟩

/-- C3 (amended): synthetic file overrides are injected exactly per the
two conditions — the rewritten descriptor exactly when source
annotations are enabled and the descriptor does not yet request origin
annotations, and the values manifest exactly when values are non-empty
— but the original uncomposed filesystem is used exactly when source
annotations are disabled and values are empty; when source annotations
are enabled with provenance already requested and no values, a union
filesystem with an empty overlay is still composed. -/
theorem prepareFilesystem_injection_characterization
    (sa : Bool) (inputPath p kustName : String) (buildMetadata : List String)
    (values : List (String × String)) (hname : kustName ≠ "values.yaml") :
    prepIsOriginal (prepareFilesystem sa inputPath buildMetadata kustName
        (.ok (p, "")) values)
      = (!sa && values.isEmpty)
    ∧ prepHasOverride (prepareFilesystem sa inputPath buildMetadata kustName
        (.ok (p, "")) values) (p ++ "/" ++ kustName)
      = (sa && !(buildMetadata.contains originAnnotationsKey))
    ∧ prepHasOverride (prepareFilesystem sa inputPath buildMetadata kustName
        (.ok (p, "")) values) (p ++ "/" ++ "values.yaml")
      = !values.isEmpty
    ∧ prepAddedOrigin (prepareFilesystem sa inputPath buildMetadata kustName
        (.ok (p, "")) values)
      = (sa && !(buildMetadata.contains originAnnotationsKey)) := by
  have hkv : (p ++ "/" ++ kustName) ≠ (p ++ "/" ++ "values.yaml") := joinSegNe hname
  have hvk : (p ++ "/" ++ "values.yaml") ≠ (p ++ "/" ++ kustName) := joinSegNe (Ne.symm hname)
  have hfold : p ++ "/" ++ "values.yaml" = p ++ "/values.yaml" := by
    have hl : ("/" ++ "values.yaml" : String) = "/values.yaml" := by decide
    rw [String.append_assoc, hl]
  have hkv2 : p ++ "/" ++ kustName ≠ p ++ "/values.yaml" := by
    rw [← hfold]; exact hkv
  have hvk2 : p ++ "/values.yaml" ≠ p ++ "/" ++ kustName := by
    rw [← hfold]; exact hvk
  cases sa with
  | false =>
    cases values with
    | nil =>
      refine ⟨rfl, rfl, rfl, rfl⟩
    | cons v vs =>
      simp [prepareFilesystem, prepIsOriginal, prepHasOverride, prepAddedOrigin,
        hvk2, hfold]
  | true =>
    cases hmeta : buildMetadata.contains originAnnotationsKey with
    | true =>
      have hmem : originAnnotationsKey ∈ buildMetadata := by simpa using hmeta
      cases values with
      | nil =>
        simp [prepareFilesystem, prepIsOriginal, prepHasOverride, prepAddedOrigin,
          hmeta, hmem, hfold]
      | cons v vs =>
        simp [prepareFilesystem, prepIsOriginal, prepHasOverride, prepAddedOrigin,
          hmeta, hmem, hvk2, hfold]
    | false =>
      have hnmem : originAnnotationsKey ∉ buildMetadata := by simpa using hmeta
      cases values with
      | nil =>
        simp [prepareFilesystem, prepIsOriginal, prepHasOverride, prepAddedOrigin,
          hmeta, hnmem, hkv2, hfold]
      | cons v vs =>
        simp [prepareFilesystem, prepIsOriginal, prepHasOverride, prepAddedOrigin,
          hmeta, hnmem, hkv2, hvk2, hfold]

theorem prepareFilesystem_injection_characterization_witness :
    prepIsOriginal (prepareFilesystem false "/app" [] "kustomization.yaml"
        (.ok ("/app", "")) []) = true
    ∧ prepHasOverride (prepareFilesystem true "/app" [] "kustomization.yaml"
        (.ok ("/app", "")) [("k", "v")]) ("/app" ++ "/" ++ "kustomization.yaml") = true
    ∧ prepHasOverride (prepareFilesystem true "/app" [] "kustomization.yaml"
        (.ok ("/app", "")) [("k", "v")]) ("/app" ++ "/" ++ "values.yaml") = true
    ∧ prepAddedOrigin (prepareFilesystem true "/app" [] "kustomization.yaml"
        (.ok ("/app", "")) [("k", "v")]) = true :=
  ⟨(prepareFilesystem_injection_characterization false "/app" "/app"
      "kustomization.yaml" [] [] (by decide)).1,
    (prepareFilesystem_injection_characterization true "/app" "/app"
      "kustomization.yaml" [] [("k", "v")] (by decide)).2.1,
    (prepareFilesystem_injection_characterization true "/app" "/app"
      "kustomization.yaml" [] [("k", "v")] (by decide)).2.2.1,
    (prepareFilesystem_injection_characterization true "/app" "/app"
      "kustomization.yaml" [] [("k", "v")] (by decide)).2.2.2⟩

/-- C4 counterexample: with source annotations disabled and no values
(the default configuration), a render specification whose path resolves
to a file does not fail with ErrPathMustBeDirectory before the builder
runs — prepareFilesystem skips the directory check, the external
builder is invoked, and the render completes. -/
theorem run_pathIsFile_counterexample :
    run false none "/app/kustomization.yaml" []
      { readKust := .ok ([], "kustomization.yaml")
        warnings := []
        cleaned := .ok ("/app", "kustomization.yaml")
        builder := fun _ => .ok []
        stderrWrite := fun _ => none }
      = ⟨.ok [], true⟩ := rfl

/-- C4 (amended): whenever synthetic injection is needed (source
annotations enabled or values non-empty) and the descriptor load and
warning stage succeeded, a path resolving to a file fails with the
dedicated ErrPathMustBeDirectory error (wrapped with the path, and
matched by errors.Is) before the external builder is invoked; with
source annotations disabled and empty values the directory check is
skipped entirely. -/
theorem run_pathIsFile_mustBeDirectory
    (sa : Bool) (handler : Option (List String → Option Err)) (inputPath p f : String)
    (values : List (String × String)) (env : RunEnv)
    (buildMetadata : List String) (kustName : String)
    (hk : env.readKust = .ok (buildMetadata, kustName))
    (hw : warnCheck handler env = none)
    (hc : env.cleaned = .ok (p, f))
    (hf : f ≠ "")
    (hneed : sa = true ∨ values ≠ []) :
    run sa handler inputPath values env
      = ⟨.error (.wrap ("path " ++ inputPath) .pathMustBeDirectory), false⟩
    ∧ Err.is (.wrap ("path " ++ inputPath) .pathMustBeDirectory) .pathMustBeDirectory
      = true := by
  have hcond : ¬ (sa = false ∧ values = []) := by
    rcases hneed with h | h
    · intro hcontra
      rw [h] at hcontra
      exact Bool.noConfusion hcontra.1
    · exact fun hcontra => h hcontra.2
  have hprep : prepareFilesystem sa inputPath buildMetadata kustName env.cleaned values
      = .error (.wrap ("path " ++ inputPath) .pathMustBeDirectory) := by
    rw [hc]
    unfold prepareFilesystem
    rw [if_neg hcond]
    simp [hf]
  constructor
  · unfold run
    rw [hk, hw]
    simp only [hprep]
  · simp [Err.is]

theorem run_pathIsFile_mustBeDirectory_witness :
    run true none "/app/kustomization.yaml" []
      { readKust := .ok ([], "kustomization.yaml")
        warnings := []
        cleaned := .ok ("/app", "kustomization.yaml")
        builder := fun _ => .ok []
        stderrWrite := fun _ => none }
      = ⟨.error (.wrap ("path " ++ "/app/kustomization.yaml") .pathMustBeDirectory), false⟩
    ∧ Err.is (.wrap ("path " ++ "/app/kustomization.yaml") .pathMustBeDirectory)
        .pathMustBeDirectory = true :=
  run_pathIsFile_mustBeDirectory true none "/app/kustomization.yaml" "/app"
    "kustomization.yaml" []
    { readKust := .ok ([], "kustomization.yaml")
      warnings := []
      cleaned := .ok ("/app", "kustomization.yaml")
      builder := fun _ => .ok []
      stderrWrite := fun _ => none }
    [] "kustomization.yaml" rfl rfl rfl (by decide) (Or.inl rfl)

theorem warningLog_none (write : String → Option Err) (warnings : List String)
    (h : ∀ m, write m = none) : warningLog write warnings = none := by
  induction warnings with
  | nil => rfl
  | cons m rest ih => simp [warningLog, h m, ih]

/-- C5 counterexample: when no handler is configured the default
(WarningLog to os.Stderr) does not always leave the render unaffected —
if writing a warning to stderr fails, the default handler's error
aborts the render, contradicting the claim that the default never fails
the render. -/
theorem run_defaultWarning_counterexample :
    run false none "/app" []
      { readKust := .ok ([], "kustomization.yaml")
        warnings := ["deprecated field used"]
        cleaned := .ok ("/app", "")
        builder := fun _ => .ok []
        stderrWrite := fun _ => some (.msg "broken pipe") }
      = ⟨.error (.wrap "failed to write warning" (.msg "broken pipe")), false⟩ := rfl

/-- C5 (amended): when the descriptor carries warnings the configured
handler is invoked with the full warning list, and if it returns an
error the render aborts returning exactly that error and no documents
(without invoking the builder); with no handler configured, the default
logs the warnings to stderr and fails the render only when a write
fails — when every write succeeds, the warnings never affect the
render's outcome. -/
theorem run_warningHandler_policy
    (sa : Bool) (h : List String → Option Err) (inputPath : String)
    (values : List (String × String)) (env : RunEnv) (e : Err)
    (buildMetadata : List String) (kustName : String)
    (hk : env.readKust = .ok (buildMetadata, kustName))
    (hw : env.warnings ≠ []) :
    (h env.warnings = some e →
      run sa (some h) inputPath values env = ⟨.error e, false⟩)
    ∧ ((∀ m, env.stderrWrite m = none) →
      run sa none inputPath values env
        = run sa none inputPath values { env with warnings := [] }) := by
  constructor
  · intro hh
    have hwc : warnCheck (some h) env = some e := by
      unfold warnCheck
      rw [if_neg hw]
      exact hh
    unfold run
    rw [hk]
    simp only [hwc]
  · intro hwrite
    have hwc : warnCheck none env = none := by
      unfold warnCheck
      rw [if_neg hw]
      exact warningLog_none env.stderrWrite env.warnings hwrite
    unfold run
    rw [hk]
    simp only [hwc]
    simp [warnCheck]

theorem run_warningHandler_policy_witness :
    run false (some (fun _ => some (.msg "warnings rejected"))) "/app" []
      { readKust := .ok ([], "kustomization.yaml")
        warnings := ["deprecated field used"]
        cleaned := .ok ("/app", "")
        builder := fun _ => .ok []
        stderrWrite := fun _ => none }
      = ⟨.error (.msg "warnings rejected"), false⟩
    ∧ run false none "/app" []
      { readKust := .ok ([], "kustomization.yaml")
        warnings := ["deprecated field used"]
        cleaned := .ok ("/app", "")
        builder := fun _ => .ok []
        stderrWrite := fun _ => none }
      = run false none "/app" []
      { readKust := .ok ([], "kustomization.yaml")
        warnings := []
        cleaned := .ok ("/app", "")
        builder := fun _ => .ok []
        stderrWrite := fun _ => none } :=
  ⟨(run_warningHandler_policy false (fun _ => some (.msg "warnings rejected")) "/app" []
      { readKust := .ok ([], "kustomization.yaml")
        warnings := ["deprecated field used"]
        cleaned := .ok ("/app", "")
        builder := fun _ => .ok []
        stderrWrite := fun _ => none }
      (.msg "warnings rejected") [] "kustomization.yaml" rfl (by decide)).1 rfl,
    (run_warningHandler_policy false (fun _ => none) "/app" []
      { readKust := .ok ([], "kustomization.yaml")
        warnings := ["deprecated field used"]
        cleaned := .ok ("/app", "")
        builder := fun _ => .ok []
        stderrWrite := fun _ => none }
      (.msg "unused") [] "kustomization.yaml" rfl (by decide)).2 (fun _ => rfl)⟩

theorem annGet_annRemove (m : List (String × String)) (k : String) :
    annGet (annRemove m k) k = none := by
  induction m with
  | nil => rfl
  | cons kv rest ih =>
    obtain ⟨q, v⟩ := kv
    by_cases hk : q = k
    · have hdrop : annRemove ((q, v) :: rest) k = annRemove rest k := by
        simp [annRemove, List.filter_cons, hk]
      rw [hdrop]
      exact ih
    · have hkeep : annRemove ((q, v) :: rest) k = (q, v) :: annRemove rest k := by
        simp [annRemove, List.filter_cons, hk]
      rw [hkeep]
      simpa [annGet, hk] using ih

theorem prepAdded_eq (sa : Bool) (inputPath : String) (buildMetadata : List String)
    (kustName : String) (cleaned : Except Err (String × String))
    (values : List (String × String)) (pr : PrepOut)
    (hp : prepareFilesystem sa inputPath buildMetadata kustName cleaned values = .ok pr) :
    pr.addedOriginAnnotations = (sa && !(buildMetadata.contains originAnnotationsKey)) := by
  unfold prepareFilesystem at hp
  split at hp
  · rename_i hcond
    injection hp with hpr
    rw [← hpr, hcond.1]
    rfl
  · split at hp
    · exact absurd hp (by simp)
    · rename_i p f
      split at hp
      · exact absurd hp (by simp)
      · injection hp with hpr
        rw [← hpr]

/-- C6: when a render itself adds provenance tracking (source
annotations enabled and the descriptor did not request origin
annotations), the builder-attached config.kubernetes.io/origin
annotation is removed from every returned document; when the descriptor
already requested provenance tracking, no stripping is performed and
the returned documents are exactly the converted builder results. -/
theorem run_originStripping
    (sa : Bool) (handler : Option (List String → Option Err)) (inputPath : String)
    (values : List (String × String)) (env : RunEnv)
    (buildMetadata : List String) (kustName : String)
    (docs raw : List Doc) (inv : Bool) (pr : PrepOut)
    (hk : env.readKust = .ok (buildMetadata, kustName)) :
    (sa = true → buildMetadata.contains originAnnotationsKey = false →
      run sa handler inputPath values env = ⟨.ok docs, inv⟩ →
      ∀ d ∈ docs, annGet d.annotations originAnnotationKey = none)
    ∧ (buildMetadata.contains originAnnotationsKey = true →
      warnCheck handler env = none →
      prepareFilesystem sa inputPath buildMetadata kustName env.cleaned values = .ok pr →
      env.builder pr.choice = .ok raw →
      run sa handler inputPath values env
        = ⟨.ok (raw.map (addSourceAnnotationsToObject sa inputPath)), true⟩) := by
  constructor
  · intro hsa hmeta hrun
    unfold run at hrun
    simp only [hk] at hrun
    cases hW : warnCheck handler env with
    | some e =>
      simp only [hW] at hrun
      injection hrun with hres _
      exact absurd hres (by simp)
    | none =>
      simp only [hW] at hrun
      cases hP : prepareFilesystem sa inputPath buildMetadata kustName env.cleaned values with
      | error e =>
        simp only [hP] at hrun
        injection hrun with hres _
        exact absurd hres (by simp)
      | ok pr1 =>
        simp only [hP] at hrun
        cases hB : env.builder pr1.choice with
        | error e =>
          simp only [hB] at hrun
          injection hrun with hres _
          exact absurd hres (by simp)
        | ok raw1 =>
          simp only [hB] at hrun
          have hadded : pr1.addedOriginAnnotations = true := by
            rw [prepAdded_eq sa inputPath buildMetadata kustName env.cleaned values pr1 hP,
              hsa, hmeta]
            rfl
          rw [hadded] at hrun
          injection hrun with hres _
          have hdocs : docs
              = (raw1.map (addSourceAnnotationsToObject sa inputPath)).map
                removeOriginAnnotations := by
            have := hres
            simp only [if_pos rfl] at this
            exact (Except.ok.inj this).symm
          intro d hd
          rw [hdocs] at hd
          rcases List.mem_map.mp hd with ⟨x, _, hx⟩
          rw [← hx]
          exact annGet_annRemove x.annotations originAnnotationKey
  · intro hmeta hw hprep hbuild
    have hadded : pr.addedOriginAnnotations = false := by
      rw [prepAdded_eq sa inputPath buildMetadata kustName env.cleaned values pr hprep,
        hmeta]
      simp
    unfold run
    simp only [hk, hw, hprep, hbuild, hadded]
    rfl

theorem run_originStripping_witness :
    (∀ d ∈ [Doc.mk "configmap" none
        [(annSourcePath, "/app"), (annSourceType, rendererType)]],
      annGet d.annotations originAnnotationKey = none)
    ∧ run true none "/app" [("k", "v")]
      { readKust := .ok ([originAnnotationsKey], "kustomization.yaml")
        warnings := []
        cleaned := .ok ("/app", "")
        builder := fun _ => .ok [Doc.mk "configmap" none [(originAnnotationKey, "x")]]
        stderrWrite := fun _ => none }
      = ⟨.ok ([Doc.mk "configmap" none [(originAnnotationKey, "x")]].map
          (addSourceAnnotationsToObject true "/app")), true⟩ := by
  constructor
  · exact (run_originStripping true none "/app" []
      { readKust := .ok ([], "kustomization.yaml")
        warnings := []
        cleaned := .ok ("/app", "")
        builder := fun _ => .ok [Doc.mk "configmap" none [(originAnnotationKey, "x")]]
        stderrWrite := fun _ => none }
      [] "kustomization.yaml"
      [Doc.mk "configmap" none [(annSourcePath, "/app"), (annSourceType, rendererType)]]
      [] true ⟨.composed [("/app" ++ "/" ++ "kustomization.yaml",
        marshalKustomization ([] ++ [originAnnotationsKey]))], true⟩
      rfl).1 rfl rfl rfl
  · exact (run_originStripping true none "/app" [("k", "v")]
      { readKust := .ok ([originAnnotationsKey], "kustomization.yaml")
        warnings := []
        cleaned := .ok ("/app", "")
        builder := fun _ => .ok [Doc.mk "configmap" none [(originAnnotationKey, "x")]]
        stderrWrite := fun _ => none }
      [originAnnotationsKey] "kustomization.yaml"
      [] [Doc.mk "configmap" none [(originAnnotationKey, "x")]] true
      ⟨.composed [("/app" ++ "/" ++ "values.yaml",
        createValuesConfigMapYAML [("k", "v")])], false⟩
      rfl).2 rfl rfl rfl rfl

/-- The process-wide state touched by SuppressStderr: the current
os.Stderr file, modelled as an opaque handle. -/
structure PState where
  stderr : Nat
  deriving DecidableEq, Repr

/-- The outcome of the wrapped function: normal return with nil error,
normal return with an error, or a panic. -/
inductive FnOut where
  | ok
  | err (e : Err)
  | panicked (m : String)
  deriving DecidableEq, Repr

/-- The outcome of SuppressStderr: a normal return carrying the
returned error (or none), or a propagated panic. -/
inductive SupOut where
  | ret (e : Option Err)
  | panicked (m : String)
  deriving DecidableEq, Repr

/-- SuppressStderr: save os.Stderr, create a pipe (which can fail, in
which case the pipe error is returned with stderr untouched and the
function never runs), redirect os.Stderr to the pipe's write end, run
the function, and restore os.Stderr in a deferred block that also runs
when the function panics. The function's outcome may depend on the
state it observes. -/
def suppressStderr (pipeOk : Bool) (pipeHandle : Nat) (fn : PState → FnOut)
    (s : PState) : PState × SupOut :=
  if pipeOk = false then
    (s, .ret (some (.wrap "failed to create pipe" (.msg "pipe error"))))
  else
    let old := s.stderr
    let res := fn { stderr := pipeHandle }
    let restored : PState := { stderr := old }
    match res with
    | .ok => (restored, .ret none)
    | .err e => (restored, .ret (some e))
    | .panicked m => (restored, .panicked m)

/-- C10: SuppressStderr restores os.Stderr to its original value after
the wrapped function returns — also when the function returns an error
or panics — and (when the pipe was created) returns the wrapped
function's error result unchanged and propagates a panic unchanged. -/
theorem suppressStderr_spec (pipeOk : Bool) (pipeHandle : Nat) (fn : PState → FnOut)
    (s : PState) :
    ((suppressStderr pipeOk pipeHandle fn s).1.stderr = s.stderr)
    ∧ (pipeOk = true →
      ((fn { stderr := pipeHandle } = .ok →
        (suppressStderr pipeOk pipeHandle fn s).2 = .ret none)
      ∧ (∀ e, fn { stderr := pipeHandle } = .err e →
        (suppressStderr pipeOk pipeHandle fn s).2 = .ret (some e))
      ∧ (∀ m, fn { stderr := pipeHandle } = .panicked m →
        (suppressStderr pipeOk pipeHandle fn s).2 = .panicked m))) := by
  cases pipeOk with
  | false => exact ⟨rfl, fun h => Bool.noConfusion h⟩
  | true =>
    constructor
    · unfold suppressStderr
      cases fn { stderr := pipeHandle } <;> simp
    · intro _
      refine ⟨fun hf => ?_, fun e hf => ?_, fun m hf => ?_⟩ <;>
        simp [suppressStderr, hf]

theorem suppressStderr_spec_witness :
    (suppressStderr true 7 (fun _ => .err (.msg "builder diagnostics")) ⟨2⟩).1.stderr = 2
    ∧ (suppressStderr true 7 (fun _ => .err (.msg "builder diagnostics")) ⟨2⟩).2
      = .ret (some (.msg "builder diagnostics")) :=
  ⟨(suppressStderr_spec true 7 (fun _ => .err (.msg "builder diagnostics")) ⟨2⟩).1,
    ((suppressStderr_spec true 7 (fun _ => .err (.msg "builder diagnostics")) ⟨2⟩).2
      rfl).2.1 (.msg "builder diagnostics") rfl⟩
